import Mathlib

/-!
Verification of the Tilck kernel fragment: timekeeping / drift compensation
(`datetime.c`), PCI configuration access and bus enumeration (`pci.c`), and
the `select()` core (`select.c`).  The C code is shallowly embedded: machine
integers are modelled as `Nat`/`Int` with explicit two's-complement wrapping
where overflow can occur, hardware and scheduler effects are abstracted into
explicit environment records, and each loop is translated into structural
recursion (with explicit fuel for the repeat-sweep loop of the PCI
enumerator).
-/

set_option maxRecDepth 4000

namespace Tilck

/-- Constant `BILLION` from the source: `10 ^ 9`. -/
def BILLION : Nat := 1000000000

/-- Reduction of an unbounded integer to a signed 32-bit value in
two's complement, modelling what storing a C `int` does. -/
def wrap32 (x : Int) : Int := (x + 2 ^ 31) % 2 ^ 32 - 2 ^ 31

/-! ### Timekeeping (`datetime.c`) -/

/-- Body of one steady-state iteration of `clock_drift_adj` (`datetime.c`):
given the measured `drift = (int)(sys_ts - hw_ts)`, it returns the pair
`(adj_val, adj_ticks)` installed into the tick engine, or `none` when
`drift == 0` and the iteration just goes back to sleep.  `TS_SCALE` and
`TIMER_HZ` are the configuration constants; all C `int` arithmetic is
modelled exactly, with `wrap32` at every operation that can overflow and
`Int.tdiv` for C's truncated division. -/
def clock_drift_adj_step (TS_SCALE TIMER_HZ : Nat) (drift : Int) :
    Option (Int × Int) :=
  if drift = 0 then
    none
  else
    let abs_drift : Int := if drift > 0 then drift else wrap32 (-drift)
    let adj_val : Int :=
      Int.tdiv ((TS_SCALE / TIMER_HZ : Nat) : Int)
        (if drift > 0 then -10 else 10)
    let adj_ticks : Int := wrap32 (wrap32 (abs_drift * TIMER_HZ) * 10)
    some (adj_val, adj_ticks)

/-- Function `get_timestamp` (`datetime.c`): `boot_timestamp + time_ns / TS_SCALE`,
where `time_ns` is the value read by `get_sys_time()`. -/
def get_timestamp (boot_timestamp : Int) (time_ns TS_SCALE : Nat) : Int :=
  boot_timestamp + ((time_ns / TS_SCALE : Nat) : Int)

/-- Function `real_time_get_timespec` (`datetime.c`): the pair
`(tv_sec, tv_nsec)` it stores, as a function of `boot_timestamp`, the
current `__time_ns` and `TS_SCALE`. -/
def real_time_get_timespec (boot_timestamp : Int) (time_ns TS_SCALE : Nat) :
    Int × Nat :=
  (boot_timestamp + ((time_ns / TS_SCALE : Nat) : Int),
   if TS_SCALE ≤ BILLION then
     (time_ns % TS_SCALE) * (BILLION / TS_SCALE)
   else
     (time_ns % TS_SCALE) / (TS_SCALE / BILLION))

/-! ### Error codes -/

/-- Errno constant EINVAL. -/
def EINVAL : Int := 22

/-- Errno constant EBADF. -/
def EBADF : Int := 9

/-- Errno constant ENOMEM. -/
def ENOMEM : Int := 12

/-! ### PCI configuration-space access, I/O-port backend (`pci.c`) -/

/-- Structure `pci_device_loc`: `(segment, bus, device, function)`. -/
structure pci_device_loc where
  seg : Nat
  bus : Nat
  dev : Nat
  func : Nat
deriving DecidableEq

/-- Result of `pci_ioport_config_read` (`pci.c`): the returned status
(0 or `-EINVAL`) together with, on the success path, the address written to
port 0xCF8 and the data port used (the data transfer itself is hardware
I/O, outside the embedded state).  The alignment mask `(width >> 3) - 1` is
computed in `u32` arithmetic exactly as in C, including the wrap-around to
`0xFFFFFFFF` when `width < 8`. -/
def pci_ioport_config_read (loc : pci_device_loc) (off width : Nat) :
    Int × Nat × Nat :=
  let aoff := off &&& (2 ^ 32 - 4)
  let addr :=
    0x80000000 ||| (loc.bus <<< 16) ||| (loc.dev <<< 11) |||
      (loc.func <<< 8) ||| aoff
  let data_port := (0xcfc + (off &&& 3)) % 2 ^ 16
  if loc.seg ≠ 0 then
    (-EINVAL, 0, 0)
  else if 256 ≤ off ∨ off &&& (((width >>> 3) + (2 ^ 32 - 1)) % 2 ^ 32) ≠ 0 then
    (-EINVAL, 0, 0)
  else if width = 8 ∨ width = 16 ∨ width = 32 then
    (0, addr, data_port)
  else
    (-EINVAL, 0, 0)

/-- Result of `pci_ioport_config_write` (`pci.c`): the returned status plus,
on success, the address written to port 0xCF8, the data port used and the
value truncated to the requested width, exactly as the `(u8)val` /
`(u16)val` / `(u32)val` casts do. -/
def pci_ioport_config_write (loc : pci_device_loc) (off width val : Nat) :
    Int × Nat × Nat × Nat :=
  let aoff := off &&& (2 ^ 32 - 4)
  let addr :=
    0x80000000 ||| (loc.bus <<< 16) ||| (loc.dev <<< 11) |||
      (loc.func <<< 8) ||| aoff
  let data_port := (0xcfc + (off &&& 3)) % 2 ^ 16
  if loc.seg ≠ 0 then
    (-EINVAL, 0, 0, 0)
  else if 256 ≤ off ∨ off &&& (((width >>> 3) + (2 ^ 32 - 1)) % 2 ^ 32) ≠ 0 then
    (-EINVAL, 0, 0, 0)
  else if width = 8 then
    (0, addr, data_port, val % 2 ^ 8)
  else if width = 16 then
    (0, addr, data_port, val % 2 ^ 16)
  else if width = 32 then
    (0, addr, data_port, val % 2 ^ 32)
  else
    (-EINVAL, 0, 0, 0)

/-! ### The select() core (`select.c`)

The VFS handle table, the per-kind condition variables and the readiness
predicates are external collaborators; they are modelled by an explicit
environment `SelEnv` (one per instant), and the scheduler's behaviour
during the wait phase (which wakeup happens, whether the timer fired,
how many ticks remain) by a `SelWorld` giving the environment at each
instant `t`.  Instant `0` is the moment the syscall starts; the wait
loop's successive wakeups happen at instants `1, 2, ...`.  The
user-memory copy helpers are assumed to succeed (faults are outside the
embedded state). -/

/-- Configuration constant `TIMER_HZ` (the Tilck default value). -/
def TIMER_HZ : Nat := 100

/-- Configuration constant `MAX_HANDLES` (size of the fd table). -/
def MAX_HANDLES : Int := 16

/-- Timeout conversion performed by `select_read_user_tv` (`select.c`):
`tmp = (u64)tv_sec * TIMER_HZ + (u64)tv_usec / (1000000ull / TIMER_HZ)`
followed by `MIN(tmp, UINT32_MAX)`.  The `u64` arithmetic is modelled with
an explicit reduction modulo `2 ^ 64` at each operation; the `timeval`
fields are modelled as unsigned 32-bit values. -/
def select_read_user_tv_ticks (HZ sec usec : Nat) : Nat :=
  let tmp := ((sec * HZ) % 2 ^ 64 + usec / (1000000 / HZ)) % 2 ^ 64
  min tmp (2 ^ 32 - 1)

/-- External state visible to `select.c` at one instant: whether
`get_fs_handle(fd)` is non-NULL, whether `gcf[kind]` applied to the fd's
handle returns a non-NULL condition variable, and whether `grf[kind]`
reports the fd's handle as ready.  Kinds 0, 1, 2 are read, write, except. -/
structure SelEnv where
  handle : Nat → Bool
  hasCond : Nat → Nat → Bool
  ready : Nat → Nat → Bool

/-- External world for one `sys_select` call: the environment at each
instant, and for each wakeup instant whether the task's wakeup object
indicates timer expiry, the tick count `task_cancel_wakeup_timer` would
return, how many wakeups the scheduler delivers before the call is
abandoned as still sleeping, and whether `allocate_mobj_waiter` succeeds. -/
structure SelWorld where
  envs : Nat → SelEnv
  timerFired : Nat → Bool
  remTicks : Nat → Nat
  wakeups : Nat
  allocOk : Bool

/-- Loop body of `select_count_cond_per_set` (`select.c`), iterating over
the fd indices: a clear bit is skipped; a set bit whose fd has no handle
aborts with `-EBADF`; otherwise `cond_cnt` is incremented when the handle
provides a condition variable for this kind. -/
def select_count_cond_fds (e : SelEnv) (k : Nat) (s : Nat → Bool) :
    List Nat → Nat → Except Int Nat
  | [], cnt => .ok cnt
  | i :: rest, cnt =>
    if s i then
      if e.handle i then
        select_count_cond_fds e k s rest (if e.hasCond k i then cnt + 1 else cnt)
      else
        .error (-EBADF)
    else
      select_count_cond_fds e k s rest cnt

/-- Function `select_count_cond_per_set` (`select.c`): a NULL set counts
nothing; otherwise the fds `0 .. nfds-1` are scanned. -/
def select_count_cond_per_set (e : SelEnv) (nfds k : Nat)
    (set : Option (Nat → Bool)) (cnt : Nat) : Except Int Nat :=
  match set with
  | none => .ok cnt
  | some s => select_count_cond_fds e k s (List.range nfds) cnt

/-- Function `select_compute_cond_cnt` (`select.c`): the three sets are
scanned only when `!c->tv || c->timeout_ticks > 0`; otherwise the
function returns immediately leaving `cond_cnt == 0`. -/
def select_compute_cond_cnt (e : SelEnv) (nfds : Nat)
    (sets : Nat → Option (Nat → Bool)) (tvPresent : Bool)
    (timeout_ticks : Nat) : Except Int Nat :=
  if tvPresent = false ∨ 0 < timeout_ticks then
    match select_count_cond_per_set e nfds 0 (sets 0) 0 with
    | .error rc => .error rc
    | .ok c0 =>
      match select_count_cond_per_set e nfds 1 (sets 1) c0 with
      | .error rc => .error rc
      | .ok c1 =>
        match select_count_cond_per_set e nfds 2 (sets 2) c1 with
        | .error rc => .error rc
        | .ok c2 => .ok c2
  else
    .ok 0

/-- Loop body of `select_set_kcond` (`select.c`), iterating over the fd
indices: a set bit whose fd has no handle aborts with `-EBADF`; when the
handle provides a condition variable it is bound into the next free
waiter slot (the model records only the slot index). -/
def select_set_kcond_fds (e : SelEnv) (k : Nat) (s : Nat → Bool) :
    List Nat → Nat → Except Int Nat
  | [], idx => .ok idx
  | i :: rest, idx =>
    if s i then
      if e.handle i then
        select_set_kcond_fds e k s rest (if e.hasCond k i then idx + 1 else idx)
      else
        .error (-EBADF)
    else
      select_set_kcond_fds e k s rest idx

/-- Function `select_set_kcond` (`select.c`). -/
def select_set_kcond (e : SelEnv) (nfds k : Nat)
    (set : Option (Nat → Bool)) (idx : Nat) : Except Int Nat :=
  match set with
  | none => .ok idx
  | some s => select_set_kcond_fds e k s (List.range nfds) idx

/-- Function `count_ready_streams_per_set` (`select.c`): the number of set
bits in one set whose fd resolves to a handle that is ready for this kind. -/
def count_ready_streams_per_set (e : SelEnv) (nfds k : Nat)
    (set : Option (Nat → Bool)) : Nat :=
  match set with
  | none => 0
  | some s =>
    ((List.range nfds).filter (fun j => s j && e.handle j && e.ready k j)).length

/-- Function `count_ready_streams` (`select.c`): the sum over the three sets. -/
def count_ready_streams (e : SelEnv) (nfds : Nat)
    (sets : Nat → Option (Nat → Bool)) : Nat :=
  count_ready_streams_per_set e nfds 0 (sets 0) +
    count_ready_streams_per_set e nfds 1 (sets 1) +
    count_ready_streams_per_set e nfds 2 (sets 2)

/-- Loop body of `select_set_ready` (`select.c`), iterating over the fd
indices: a set bit is cleared (`FD_CLR`) when its fd has no handle or the
handle is not ready, and counted into `tot` otherwise; a clear bit is left
as it is. -/
def select_set_ready_fds (e : SelEnv) (k : Nat) (s : Nat → Bool) :
    List Nat → List Bool × Nat
  | [] => ([], 0)
  | i :: rest =>
    let r := select_set_ready_fds e k s rest
    if s i then
      if e.handle i && e.ready k i then
        (true :: r.1, r.2 + 1)
      else
        (false :: r.1, r.2)
    else
      (s i :: r.1, r.2)

/-- Function `select_set_ready` (`select.c`): a NULL set contributes 0 and
no output bitset; otherwise the bits `0 .. nfds-1` are rewritten. -/
def select_set_ready (e : SelEnv) (nfds k : Nat)
    (set : Option (Nat → Bool)) : Option (List Bool) × Nat :=
  match set with
  | none => (none, 0)
  | some s =>
    let r := select_set_ready_fds e k s (List.range nfds)
    (some r.1, r.2)

/-- Function `select_write_user_sets` (`select.c`): rewrites the three
sets via `select_set_ready`, sums the per-set ready counts, and copies the
updated sets (and `timeval`, handled by the caller model) back to user
space.  The returned list holds the three output bitsets. -/
def select_write_user_sets (e : SelEnv) (nfds : Nat)
    (sets : Nat → Option (Nat → Bool)) : Int × List (Option (List Bool)) :=
  let r0 := select_set_ready e nfds 0 (sets 0)
  let r1 := select_set_ready e nfds 1 (sets 1)
  let r2 := select_set_ready e nfds 2 (sets 2)
  (((r0.2 + r1.2 + r2.2 : Nat) : Int), [r0.1, r1.1, r2.1])

/-- Exit status of the wait loop in `select_wait_on_cond` (`select.c`):
the loop is abandoned still sleeping when the scheduler delivers no
further wakeup, or it breaks out at instant `t` because the timer
expired, or because ready streams were found (with `rem` the tick count
returned by `task_cancel_wakeup_timer`), with or without a timeout armed. -/
inductive WaitExit where
  | stillBlocked
  | timerExpired (t : Nat)
  | condReady (t rem : Nat)
  | condReadyNoTv (t : Nat)
deriving DecidableEq

/-- The `while (true)` wait loop of `select_wait_on_cond` (`select.c`):
each iteration sleeps on the waiter and wakes at the next instant; a
timer-expiry wakeup breaks out; a condition-variable wakeup re-checks
`count_ready_streams` and goes back to sleep when no stream is ready. -/
def select_wait_loop (w : SelWorld) (nfds : Nat)
    (sets : Nat → Option (Nat → Bool)) (tvPresent : Bool) :
    Nat → Nat → WaitExit
  | 0, _ => .stillBlocked
  | fuel + 1, t =>
    if tvPresent then
      if w.timerFired t then
        .timerExpired t
      else if count_ready_streams (w.envs t) nfds sets = 0 then
        select_wait_loop w nfds sets tvPresent fuel (t + 1)
      else
        .condReady t (w.remTicks t)
    else
      if count_ready_streams (w.envs t) nfds sets = 0 then
        select_wait_loop w nfds sets tvPresent fuel (t + 1)
      else
        .condReadyNoTv t

/-- Function `select_wait_on_cond` (`select.c`): allocate the waiter
(`-ENOMEM` on failure), bind the condition variables of the three sets
(`-EBADF` when a set fd no longer resolves), arm the wakeup timer when a
timeout is present, then run the wait loop. -/
def select_wait_on_cond (w : SelWorld) (nfds : Nat)
    (sets : Nat → Option (Nat → Bool)) (cond_cnt : Nat) (tvPresent : Bool) :
    Except Int WaitExit :=
  if w.allocOk = false then
    .error (-ENOMEM)
  else
    match select_set_kcond (w.envs 0) nfds 0 (sets 0) 0 with
    | .error rc => .error rc
    | .ok i0 =>
      match select_set_kcond (w.envs 0) nfds 1 (sets 1) i0 with
      | .error rc => .error rc
      | .ok i1 =>
        match select_set_kcond (w.envs 0) nfds 2 (sets 2) i1 with
        | .error rc => .error rc
        | .ok _ => .ok (select_wait_loop w nfds sets tvPresent w.wakeups 1)

/-- Outcome of one `sys_select` call: a negative errno, or a call still
sleeping after all wakeups the world provides, or a normal return carrying
the return value, the three output bitsets, the `timeval` written back
(when one was passed), whether the call ever blocked, and the instant at
which the report phase ran. -/
inductive SelOutcome where
  | fail (rc : Int)
  | blocked
  | done (ret : Int) (rsets : List (Option (List Bool)))
      (rtv : Option (Nat × Nat)) (slept : Bool) (rt : Nat)
deriving DecidableEq

/-- Report-and-return tail shared by every normal exit of `sys_select`:
run `select_write_user_sets` against the environment at instant `rt` and
package the outcome. -/
def select_finish (e : SelEnv) (nfds : Nat)
    (sets : Nat → Option (Nat → Bool)) (rtv : Option (Nat × Nat))
    (slept : Bool) (rt : Nat) : SelOutcome :=
  let r := select_write_user_sets e nfds sets
  .done r.1 r.2 rtv slept rt

/-- Timeout derivation of `sys_select` (`select.c`): `timeout_ticks`
stays 0 when no `timeval` is passed, and otherwise comes from
`select_read_user_tv`. -/
def select_timeout_of (u_tv : Option (Nat × Nat)) : Nat :=
  match u_tv with
  | none => 0
  | some (sec, usec) => select_read_user_tv_ticks TIMER_HZ sec usec

/-- Syscall `sys_select` (`select.c`): validate `nfds`, copy the sets and
the `timeval` (modelled as always succeeding), derive `timeout_ticks`,
compute `cond_cnt`, then either wait on the conditions, or sleep for the
timeout when there is no condition but a positive timeout, or fall
straight through to the report phase. -/
def sys_select (w : SelWorld) (user_nfds : Int)
    (u_sets : Nat → Option (Nat → Bool)) (u_tv : Option (Nat × Nat)) :
    SelOutcome :=
  if user_nfds < 0 ∨ MAX_HANDLES < user_nfds then
    .fail (-EINVAL)
  else
    let nfds := user_nfds.toNat
    let timeout_ticks := select_timeout_of u_tv
    match select_compute_cond_cnt (w.envs 0) nfds u_sets u_tv.isSome
        timeout_ticks with
    | .error rc => .fail rc
    | .ok cond_cnt =>
      if 0 < cond_cnt then
        match select_wait_on_cond w nfds u_sets cond_cnt u_tv.isSome with
        | .error rc => .fail rc
        | .ok .stillBlocked => .blocked
        | .ok (.timerExpired t) =>
          select_finish (w.envs t) nfds u_sets (some (0, 0)) true t
        | .ok (.condReady t rem) =>
          select_finish (w.envs t) nfds u_sets
            (some (rem / TIMER_HZ, (rem % TIMER_HZ) * (1000000 / TIMER_HZ)))
            true t
        | .ok (.condReadyNoTv t) =>
          select_finish (w.envs t) nfds u_sets none true t
      else
        if 0 < timeout_ticks then
          select_finish (w.envs 1) nfds u_sets u_tv true 1
        else
          select_finish (w.envs 0) nfds u_sets u_tv false 0

/-- Number of set bits in one (possibly absent) output bitset. -/
def out_bits_count (o : Option (List Bool)) : Nat :=
  match o with
  | none => 0
  | some l => l.count true

/-- Total number of set bits across the returned output bitsets. -/
def out_sets_count (rsets : List (Option (List Bool))) : Nat :=
  (rsets.map out_bits_count).sum

/-- Bit `i` of output bitset `k`, false when the set is absent or `i` is
out of range. -/
def out_bit (rsets : List (Option (List Bool))) (k i : Nat) : Bool :=
  match rsets.getD k none with
  | none => false
  | some l => l.getD i false

/-- Predicate describing when the claim "bad fd in any set" holds at one
instant: some kind `k < 3` has a set whose bit `i < nfds` is set while
`get_fs_handle(i)` is NULL. -/
def has_bad_fd (e : SelEnv) (nfds : Nat)
    (sets : Nat → Option (Nat → Bool)) : Prop :=
  ∃ k < 3, ∃ s, sets k = some s ∧ ∃ i < nfds, s i = true ∧ e.handle i = false

/-- Concrete environment with an empty handle table. -/
def selEnvNoHandles : SelEnv :=
  ⟨fun _ => false, fun _ _ => false, fun _ _ => false⟩

/-- Concrete world built from `selEnvNoHandles`: no wakeups, allocation
succeeds. -/
def selWorldNoHandles : SelWorld :=
  ⟨fun _ => selEnvNoHandles, fun _ => false, fun _ => 0, 0, true⟩

/-- Concrete fd-set vector: only the read set is passed, with bit 0 set. -/
def selSetBit0 : Nat → Option (Nat → Bool) :=
  fun k => if k = 0 then some (fun i => i == 0) else none

/-- Concrete environment where fd 0 resolves, has a read condition
variable and is read-ready, while every other fd is unknown. -/
def selEnvFd0Ready : SelEnv :=
  ⟨fun i => i == 0, fun k i => k == 0 && i == 0, fun k i => k == 0 && i == 0⟩

/-- Concrete world built from `selEnvFd0Ready`. -/
def selWorldFd0Ready : SelWorld :=
  ⟨fun _ => selEnvFd0Ready, fun _ => false, fun _ => 0, 1, true⟩

/-! ### PCI bus enumeration (`pci.c`)

The configuration space itself is external: the environment `PciEnv`
says, for every location, whether `pci_device_get_info` succeeds (a
`none` covers both an absent device — vendor id 0 or 0xFFFF — and a
failing config-space read) and, for the functions that are PCI-to-PCI
bridges, the secondary- and subordinate-bus registers.  The run state
carries the 256-entry bus vector `pci_buses` together with two traces:
the buses passed to `pci_discover_bus`, in order, and the buses actually
transitioned from `NOT_VISITED` to `TO_VISIT` by `pci_mark_bus_to_visit`. -/

/-- States of one entry of the `pci_buses` vector (`pci.c`):
`BUS_NOT_VISITED`, `BUS_TO_VISIT`, `BUS_VISITED`. -/
inductive BusState where
  | not_visited
  | to_visit
  | visited
deriving DecidableEq

/-- Numeric rank of a bus state, in the order in which a bus can only
ever advance. -/
def BusState.rank : BusState → Nat
  | .not_visited => 0
  | .to_visit => 1
  | .visited => 2

/-- The part of `pci_device_basic_info` the enumerator consumes, together
with the two header-type-1 bridge registers and a flag saying whether the
two config-space reads of those registers succeed. -/
structure PciDevInfo where
  multi_func : Bool
  class_id : Nat
  subclass_id : Nat
  secondary_bus : Nat
  subordinate_bus : Nat
  bridge_regs_ok : Bool

/-- External configuration space: what `pci_device_get_info` yields at
each location. -/
structure PciEnv where
  dev_info : pci_device_loc → Option PciDevInfo

/-- Run state of the enumerator: the 256-entry bus vector plus the visit
and mark traces. -/
structure PciState where
  buses : Nat → BusState
  visit_log : List Nat
  mark_log : List Nat

/-- Initial state of an enumeration run: the static `pci_buses` array is
zero-initialized, i.e. every entry is `BUS_NOT_VISITED`. -/
def initPciState : PciState :=
  ⟨fun _ => .not_visited, [], []⟩

/-- Function `pci_mark_bus_to_visit` (`pci.c`): a bus is marked
`BUS_TO_VISIT` only when its entry is still `BUS_NOT_VISITED`. -/
def pci_mark_bus_to_visit (st : PciState) (bus : Nat) : PciState :=
  if st.buses bus = .not_visited then
    { st with
      buses := Function.update st.buses bus .to_visit,
      mark_log := st.mark_log ++ [bus] }
  else
    st

/-- Function `pci_mark_bus_as_visited` (`pci.c`). -/
def pci_mark_bus_as_visited (st : PciState) (bus : Nat) : PciState :=
  { st with buses := Function.update st.buses bus .visited }

/-- The bridge loop of `pci_discover_device_func` (`pci.c`):
`for (u32 i = secondary; i <= subordinate; i++) pci_mark_bus_to_visit((u8)i)`.
The `u8` cast is the reduction modulo 256. -/
def pci_mark_bus_range (st : PciState) (secondary subordinate : Nat) :
    PciState :=
  (List.range' secondary (subordinate + 1 - secondary)).foldl
    (fun s i => pci_mark_bus_to_visit s (i % 256)) st

/-- Function `pci_discover_device_func` (`pci.c`): for a non-zero
function number the device info is read first (`false` when absent); a
PCI-to-PCI bridge (class 0x06, subclass 0x04) has its secondary- and
subordinate-bus registers read (`false`, without marking, when either
read fails) and the bus range marked to visit. -/
def pci_discover_device_func (env : PciEnv) (loc : pci_device_loc)
    (dev_nfo : Option PciDevInfo) (st : PciState) : PciState × Bool :=
  let nfoOpt := if loc.func ≠ 0 then env.dev_info loc else dev_nfo
  match nfoOpt with
  | none => (st, false)
  | some nfo =>
    if nfo.class_id = 0x06 ∧ nfo.subclass_id = 0x04 then
      if nfo.bridge_regs_ok then
        (pci_mark_bus_range st nfo.secondary_bus nfo.subordinate_bus, true)
      else
        (st, false)
    else
      (st, true)

/-- Function `pci_discover_device` (`pci.c`): probe function 0; when the
device answers and is multi-function, probe functions 1 to 7 as well. -/
def pci_discover_device (env : PciEnv) (loc : pci_device_loc)
    (st : PciState) : PciState × Bool :=
  match env.dev_info loc with
  | none => (st, false)
  | some nfo =>
    let r := pci_discover_device_func env loc (some nfo) st
    if r.2 = false then
      (r.1, false)
    else if nfo.multi_func then
      ((List.range' 1 7).foldl
        (fun s func =>
          (pci_discover_device_func env { loc with func := func } none s).1)
        r.1, true)
    else
      (r.1, true)

/-- Function `pci_discover_bus` (`pci.c`): mark the bus visited, then
scan the 32 device slots.  The model also appends the bus to the visit
trace at this point. -/
def pci_discover_bus (env : PciEnv) (seg_num : Nat) (bus : Nat)
    (st : PciState) : PciState :=
  let st1 := pci_mark_bus_as_visited
    { st with visit_log := st.visit_log ++ [bus] } bus
  (List.range 32).foldl
    (fun s dev => (pci_discover_device env ⟨seg_num, bus, dev, 0⟩ s).1) st1

/-- Body of the inner `for` loop of the repeat loop of
`pci_discover_segment` (`pci.c`): visit the bus when its entry is
`BUS_TO_VISIT`, incrementing `visit_count`. -/
def pci_sweep_step (env : PciEnv) (seg_num : Nat)
    (r : PciState × Nat) (bus : Nat) : PciState × Nat :=
  if r.1.buses bus = .to_visit then
    (pci_discover_bus env seg_num bus r.1, r.2 + 1)
  else
    r

/-- One full sweep of the repeat loop of `pci_discover_segment`
(`pci.c`): scan buses 1 to 255 and visit each entry found in state
`BUS_TO_VISIT`, counting the visits. -/
def pci_discover_sweep (env : PciEnv) (seg_num : Nat) (st : PciState) :
    PciState × Nat :=
  (List.range' 1 255).foldl (pci_sweep_step env seg_num) (st, 0)

/-- The `do { ... } while (visit_count > 0)` loop of
`pci_discover_segment` (`pci.c`), with explicit fuel bounding the number
of sweeps; the boolean records whether the loop actually reached its exit
condition (a sweep with zero visits) within the given fuel. -/
def pci_discover_sweep_loop (env : PciEnv) (seg_num : Nat) :
    Nat → PciState → PciState × Bool
  | 0, st => (st, false)
  | fuel + 1, st =>
    let r := pci_discover_sweep env seg_num st
    if 0 < r.2 then
      pci_discover_sweep_loop env seg_num fuel r.1
    else
      (r.1, true)

/-- The multi-controller loop of `pci_discover_segment` (`pci.c`): for
each function 0 to 7 of device (0,0,0), stop at the first one whose info
read fails, otherwise visit the bus whose number equals the function
index. -/
def pci_discover_multi (env : PciEnv) (seg_num : Nat) :
    Nat → Nat → PciState → PciState
  | _, 0, st => st
  | func, fuel + 1, st =>
    match env.dev_info ⟨0, 0, 0, func⟩ with
    | none => st
    | some _ =>
      pci_discover_multi env seg_num (func + 1) fuel
        (pci_discover_bus env seg_num func st)

/-- Function `pci_discover_segment` (`pci.c`): read the root device at
(0,0,0,0) (returning untouched on failure), visit bus 0 (or buses 0..7
when the root is multi-function), then repeatedly sweep the marked buses.
`fuel` bounds the number of sweeps; the boolean is true when the sweep
loop reached its exit condition (trivially true when the early-return
path is taken and the loop never starts). -/
def pci_discover_segment (env : PciEnv) (seg_num : Nat) (fuel : Nat)
    (st : PciState) : PciState × Bool :=
  match env.dev_info ⟨0, 0, 0, 0⟩ with
  | none => (st, true)
  | some nfo =>
    let st1 :=
      if nfo.multi_func = false then
        pci_discover_bus env seg_num 0 st
      else
        pci_discover_multi env seg_num 0 8 st
    pci_discover_sweep_loop env seg_num fuel st1

/-- Pointwise advancement of the bus vector between two states: no entry
ever moves backwards in the order NOT_VISITED, TO_VISIT, VISITED. -/
def buses_advance (f g : Nat → BusState) : Prop :=
  ∀ b, (f b).rank ≤ (g b).rank

/-- Number of entries of the 256-entry bus vector not yet visited; the
measure that makes the repeat-sweep loop terminate. -/
def nv_count (st : PciState) : Nat :=
  ((Finset.range 256).filter (fun b => st.buses b ≠ .visited)).card

/-- Relation between two run states none of whose differences exceed
what calls to `pci_mark_bus_to_visit` can produce: the visit trace is
unchanged, each bus entry is unchanged or freshly advanced from
`NOT_VISITED` to `TO_VISIT`, and the mark trace grew only by buses below
256 that are no longer `NOT_VISITED`. -/
def pci_marks_only (st st' : PciState) : Prop :=
  st'.visit_log = st.visit_log ∧
  (∀ b, st'.buses b = st.buses b ∨
    (st.buses b = .not_visited ∧ st'.buses b = .to_visit)) ∧
  ∃ nm, st'.mark_log = st.mark_log ++ nm ∧
    ∀ b ∈ nm, st'.buses b ≠ .not_visited ∧ b < 256

/-- Run invariant of the enumerator: a bus is `VISITED` exactly when it
appears in the visit trace, the visit trace has no duplicates, and every
marked bus is below 256 and no longer `NOT_VISITED`. -/
def pci_inv (st : PciState) : Prop :=
  (∀ b, st.buses b = .visited ↔ b ∈ st.visit_log) ∧
  st.visit_log.Nodup ∧
  ∀ b ∈ st.mark_log, st.buses b ≠ .not_visited ∧ b < 256

/-- Concrete run state whose entry 0 is already `VISITED`. -/
def pciStVisited0 : PciState :=
  ⟨Function.update (fun _ => BusState.not_visited) 0 .visited, [0], []⟩

/-- Concrete environment with no device at all (every info read fails). -/
def pciEnvEmpty : PciEnv := ⟨fun _ => none⟩

/-- Concrete environment of the single-controller scenario: one host
bridge at (0,0,0,0) and a PCI-to-PCI bridge at (0,0,2,0) with secondary
bus 1 and subordinate bus 3. -/
def pciEnvBridge : PciEnv :=
  ⟨fun loc =>
    if loc = ⟨0, 0, 0, 0⟩ then
      some ⟨false, 0x06, 0x00, 0, 0, true⟩
    else if loc = ⟨0, 0, 2, 0⟩ then
      some ⟨false, 0x06, 0x04, 1, 3, true⟩
    else
      none⟩

/-- One-set version of the bad-fd condition: the set is present and has a
set bit below `nfds` whose fd has no handle. -/
def set_has_bad_fd (e : SelEnv) (nfds : Nat)
    (set : Option (Nat → Bool)) : Prop :=
  ∃ s, set = some s ∧ ∃ i < nfds, s i = true ∧ e.handle i = false

/-- Concrete environment where fd 0 resolves but is never ready and has
no condition variable. -/
def selEnvNotReady : SelEnv :=
  ⟨fun i => i == 0, fun _ _ => false, fun _ _ => false⟩

/-- Concrete world built from `selEnvNotReady`. -/
def selWorldNotReady : SelWorld :=
  ⟨fun _ => selEnvNotReady, fun _ => false, fun _ => 0, 1, true⟩

/-- Predicate describing when the I/O-port backend rejects an access
with `-EINVAL`, in the words of the specification: non-zero segment,
offset out of the 256-byte conventional config space, offset not aligned
to `width / 8`, or a width other than 8, 16 or 32 bits. -/
def pci_ioport_invalid (loc : pci_device_loc) (off width : Nat) : Prop :=
  loc.seg ≠ 0 ∨ 256 ≤ off ∨ off % (width / 8) ≠ 0 ∨
    ¬(width = 8 ∨ width = 16 ∨ width = 32)

instance (loc : pci_device_loc) (off width : Nat) :
    Decidable (pci_ioport_invalid loc off width) := by
  unfold pci_ioport_invalid; infer_instance

/-! ## Theorems -/

/-- Helper: `wrap32` is the identity on every value representable in a
signed 32-bit integer. -/
theorem wrap32_eq_self {x : Int} (h1 : -2 ^ 31 ≤ x) (h2 : x < 2 ^ 31) :
    wrap32 x = x := by
  unfold wrap32
  rw [Int.emod_eq_of_lt (by omega) (by omega)]
  omega

/-- C1: in the steady-state loop of `clock_drift_adj`, a non-zero drift
installs `adj_val = (TS_SCALE / TIMER_HZ) / (-10)` for positive drift and
`(TS_SCALE / TIMER_HZ) / 10` for negative drift — so the adjustment's
sign opposes the drift's sign — and `adj_ticks = |drift| * TIMER_HZ * 10`.
The bound `hb` keeps the C `int` products free of overflow and `hq` says
a tick is at least 10 time units, which every real configuration
satisfies (`TS_SCALE = 10⁹`, `TIMER_HZ ≤ 1000`). -/
theorem clock_drift_adj_step_spec (TS_SCALE TIMER_HZ : Nat) (drift : Int)
    (hH : 0 < TIMER_HZ) (hd : drift ≠ 0)
    (hb : drift.natAbs * TIMER_HZ * 10 < 2 ^ 31)
    (hq : 10 ≤ TS_SCALE / TIMER_HZ) :
    clock_drift_adj_step TS_SCALE TIMER_HZ drift =
      some (((TS_SCALE / TIMER_HZ : Nat) : Int) /
              (if 0 < drift then (-10 : Int) else 10),
            ((drift.natAbs * TIMER_HZ * 10 : Nat) : Int)) ∧
    (0 < drift → ((TS_SCALE / TIMER_HZ : Nat) : Int) / (-10 : Int) < 0) ∧
    (drift < 0 → 0 < ((TS_SCALE / TIMER_HZ : Nat) : Int) / (10 : Int)) := by
  have hnn0 : (0 : Int) ≤ (drift.natAbs : Int) := Int.natCast_nonneg _
  have hnnH : (0 : Int) ≤ (TIMER_HZ : Int) := Int.natCast_nonneg _
  have habs : (drift.natAbs : Int) * TIMER_HZ * 10 < 2 ^ 31 := by
    exact_mod_cast hb
  have hnnP : (0 : Int) ≤ (drift.natAbs : Int) * TIMER_HZ := by positivity
  have hltP : (drift.natAbs : Int) * TIMER_HZ < 2 ^ 31 := by nlinarith
  have habs1 : (drift.natAbs : Int) ≤ (drift.natAbs : Int) * TIMER_HZ * 10 := by
    have h1H : (1 : Int) ≤ (TIMER_HZ : Int) := by exact_mod_cast hH
    nlinarith
  have hdabs : (drift.natAbs : Int) < 2 ^ 31 := lt_of_le_of_lt habs1 habs
  have hq1 : 1 ≤ TS_SCALE / TIMER_HZ / 10 := by
    exact (Nat.one_le_div_iff (by norm_num)).2 hq
  have hqpos : (0 : Int) < ((TS_SCALE / TIMER_HZ / 10 : Nat) : Int) := by
    exact_mod_cast hq1
  have hdivneg : ((TS_SCALE / TIMER_HZ : Nat) : Int) / (-10 : Int) =
      -(((TS_SCALE / TIMER_HZ / 10 : Nat) : Int)) := by
    rw [Int.ediv_neg]
    norm_num [Int.ofNat_ediv]
  have hdivpos : ((TS_SCALE / TIMER_HZ : Nat) : Int) / (10 : Int) =
      ((TS_SCALE / TIMER_HZ / 10 : Nat) : Int) := by
    norm_num [Int.ofNat_ediv]
  refine ⟨?_, ?_, ?_⟩
  case refine_2 => intro _; rw [hdivneg]; omega
  case refine_3 => intro _; rw [hdivpos]; omega
  simp only [clock_drift_adj_step]
  rw [if_neg hd]
  have habs_eq : (if drift > 0 then drift else wrap32 (-drift)) =
      (drift.natAbs : Int) := by
    by_cases hpos : 0 < drift
    · rw [if_pos hpos]
      omega
    · rw [if_neg hpos]
      rw [wrap32_eq_self (by omega) (by omega)]
      omega
  have h1 : wrap32 ((drift.natAbs : Int) * TIMER_HZ) =
      (drift.natAbs : Int) * TIMER_HZ :=
    wrap32_eq_self (by linarith) hltP
  have h2 : wrap32 ((drift.natAbs : Int) * TIMER_HZ * 10) =
      (drift.natAbs : Int) * TIMER_HZ * 10 :=
    wrap32_eq_self (by linarith) habs
  have hcast : (drift.natAbs : Int) * TIMER_HZ * 10 =
      ((drift.natAbs * TIMER_HZ * 10 : Nat) : Int) := by
    push_cast
    ring
  have hval : Int.tdiv ((TS_SCALE / TIMER_HZ : Nat) : Int)
      (if drift > 0 then -10 else 10) =
      ((TS_SCALE / TIMER_HZ : Nat) : Int) /
        (if 0 < drift then (-10 : Int) else 10) := by
    by_cases hpos : 0 < drift
    · rw [if_pos hpos, Int.tdiv_neg, Int.ediv_neg,
        Int.tdiv_eq_ediv (Int.natCast_nonneg _) (by norm_num)]
    · rw [if_neg hpos,
        Int.tdiv_eq_ediv (Int.natCast_nonneg _) (by norm_num)]
  rw [habs_eq, h1, h2, hcast, hval]

/-- Witness for C1 at the default configuration `TS_SCALE = 10⁹`,
`TIMER_HZ = 100` and a drift of one second: the loop installs
`adj_val = -10⁶` (one tenth of a tick, slowing the clock) for 1000 ticks. -/
theorem clock_drift_adj_step_spec_witness :
    clock_drift_adj_step 1000000000 100 1 = some (-1000000, 1000) ∧
    ((1000000000 / 100 : Nat) : Int) / (-10 : Int) < 0 := by
  have h := clock_drift_adj_step_spec 1000000000 100 1 (by decide) (by decide)
    (by decide) (by decide)
  exact ⟨by rw [h.1]; decide, h.2.1 (by decide)⟩

/-- C7: `get_timestamp` returns `boot_timestamp + time_ns / TS_SCALE`,
and `real_time_get_timespec` fills `tv_sec` with the same value and
`tv_nsec` with `time_ns % TS_SCALE` rescaled to nanoseconds, multiplying
by `10⁹ / TS_SCALE` when `TS_SCALE ≤ 10⁹` and dividing by
`TS_SCALE / 10⁹` otherwise. -/
theorem get_timestamp_timespec_spec (boot : Int) (t S : Nat) :
    get_timestamp boot t S = boot + ((t / S : Nat) : Int) ∧
    (real_time_get_timespec boot t S).1 = get_timestamp boot t S ∧
    (real_time_get_timespec boot t S).2 =
      if S ≤ 10 ^ 9 then (t % S) * (10 ^ 9 / S) else (t % S) / (S / 10 ^ 9) := by
  refine ⟨rfl, rfl, ?_⟩
  simp only [real_time_get_timespec, BILLION]
  norm_num

/-- Helper: the result of `pci_ioport_config_read` is `-EINVAL` when the
rejection predicate holds and 0 otherwise. -/
theorem pci_ioport_config_read_result (loc : pci_device_loc)
    (off width : Nat) :
    (pci_ioport_config_read loc off width).1 =
      if pci_ioport_invalid loc off width then -EINVAL else 0 := by
  unfold pci_ioport_config_read pci_ioport_invalid
  by_cases hseg : loc.seg ≠ 0
  · simp [hseg]
  · by_cases hoff : 256 ≤ off
    · simp [hseg, hoff]
    · by_cases h8 : width = 8
      · subst h8
        have hmask : ((8 >>> 3) + (2 ^ 32 - 1)) % 2 ^ 32 = 0 := by decide
        have hland : off &&& 0 = 0 := Nat.and_zero off
        simp [hseg, hoff, hmask, hland, Nat.mod_one]
      · by_cases h16 : width = 16
        · subst h16
          have hmask : ((16 >>> 3) + (2 ^ 32 - 1)) % 2 ^ 32 = 1 := by decide
          have hland : off &&& 1 = off % 2 := Nat.and_one_is_mod off
          by_cases hal : off % 2 = 0
          · simp [hseg, hoff, hmask, hland, hal]
          · simp [hseg, hoff, hmask, hland, hal]
        · by_cases h32 : width = 32
          · subst h32
            have hmask : ((32 >>> 3) + (2 ^ 32 - 1)) % 2 ^ 32 = 3 := by decide
            have hland : off &&& 3 = off % 4 := by
              have h := Nat.and_pow_two_sub_one_eq_mod off 2
              norm_num at h
              exact h
            by_cases hal : off % 4 = 0
            · simp [hseg, hoff, hmask, hland, hal]
            · simp [hseg, hoff, hmask, hland, hal]
          · by_cases hland : off &&& (((width >>> 3) + (2 ^ 32 - 1)) % 2 ^ 32) = 0
            · simp [hseg, hoff, h8, h16, h32, hland]
            · simp [hseg, hoff, h8, h16, h32, hland]

/-- Helper: the result of `pci_ioport_config_write` is `-EINVAL` when the
rejection predicate holds and 0 otherwise. -/
theorem pci_ioport_config_write_result (loc : pci_device_loc)
    (off width val : Nat) :
    (pci_ioport_config_write loc off width val).1 =
      if pci_ioport_invalid loc off width then -EINVAL else 0 := by
  unfold pci_ioport_config_write pci_ioport_invalid
  by_cases hseg : loc.seg ≠ 0
  · simp [hseg]
  · by_cases hoff : 256 ≤ off
    · simp [hseg, hoff]
    · by_cases h8 : width = 8
      · subst h8
        have hmask : ((8 >>> 3) + (2 ^ 32 - 1)) % 2 ^ 32 = 0 := by decide
        have hland : off &&& 0 = 0 := Nat.and_zero off
        simp [hseg, hoff, hmask, hland, Nat.mod_one]
      · by_cases h16 : width = 16
        · subst h16
          have hmask : ((16 >>> 3) + (2 ^ 32 - 1)) % 2 ^ 32 = 1 := by decide
          have hland : off &&& 1 = off % 2 := Nat.and_one_is_mod off
          by_cases hal : off % 2 = 0
          · simp [hseg, hoff, hmask, hland, hal]
          · simp [hseg, hoff, hmask, hland, hal]
        · by_cases h32 : width = 32
          · subst h32
            have hmask : ((32 >>> 3) + (2 ^ 32 - 1)) % 2 ^ 32 = 3 := by decide
            have hland : off &&& 3 = off % 4 := by
              have h := Nat.and_pow_two_sub_one_eq_mod off 2
              norm_num at h
              exact h
            by_cases hal : off % 4 = 0
            · simp [hseg, hoff, hmask, hland, hal]
            · simp [hseg, hoff, hmask, hland, hal]
          · by_cases hland : off &&& (((width >>> 3) + (2 ^ 32 - 1)) % 2 ^ 32) = 0
            · simp [hseg, hoff, h8, h16, h32, hland]
            · simp [hseg, hoff, h8, h16, h32, hland]

/-- C8: the legacy I/O-port backend's read and write return `-EINVAL`
exactly when the segment is non-zero, or the offset is at least 256, or
the offset is not aligned to `width / 8`, or the width is not 8, 16 or
32; on every other input they return 0. -/
theorem pci_ioport_config_rw_spec (loc : pci_device_loc)
    (off width val : Nat) :
    ((pci_ioport_config_read loc off width).1 = -EINVAL ↔
      pci_ioport_invalid loc off width) ∧
    ((pci_ioport_config_read loc off width).1 = 0 ↔
      ¬ pci_ioport_invalid loc off width) ∧
    ((pci_ioport_config_write loc off width val).1 = -EINVAL ↔
      pci_ioport_invalid loc off width) ∧
    ((pci_ioport_config_write loc off width val).1 = 0 ↔
      ¬ pci_ioport_invalid loc off width) := by
  have hner : -EINVAL ≠ (0 : Int) := by decide
  have hE : EINVAL ≠ (0 : Int) := by decide
  rw [pci_ioport_config_read_result, pci_ioport_config_write_result]
  by_cases h : pci_ioport_invalid loc off width
  · simp [h, hner, hE]
  · simp [h, hner, hE]

/-- C6: for a `timeval` whose fields fit in 32 bits, the derived timeout
equals `min(sec * TIMER_HZ + usec / (10⁶ / TIMER_HZ), UINT32_MAX)` and
the 64-bit sum involved never overflows, so the reductions modulo `2⁶⁴`
in the embedded computation are the identity. -/
theorem select_read_user_tv_ticks_spec (HZ sec usec : Nat)
    (hHZ : 0 < HZ) (hHZle : HZ ≤ 1000000)
    (hsec : sec < 2 ^ 32) (husec : usec < 2 ^ 32) :
    select_read_user_tv_ticks HZ sec usec =
      min (sec * HZ + usec / (1000000 / HZ)) (2 ^ 32 - 1) ∧
    sec * HZ + usec / (1000000 / HZ) < 2 ^ 64 := by
  have hA : sec * HZ ≤ 4294967295 * 1000000 :=
    Nat.mul_le_mul (by omega) hHZle
  have hB : usec / (1000000 / HZ) ≤ 4294967295 :=
    le_trans (Nat.div_le_self _ _) (by omega)
  have hlt : sec * HZ + usec / (1000000 / HZ) < 2 ^ 64 := by
    calc sec * HZ + usec / (1000000 / HZ) ≤
        4294967295 * 1000000 + 4294967295 := Nat.add_le_add hA hB
      _ < 2 ^ 64 := by norm_num
  have h1 : (sec * HZ) % 2 ^ 64 = sec * HZ :=
    Nat.mod_eq_of_lt (lt_of_le_of_lt (Nat.le_add_right _ _) hlt)
  refine ⟨?_, hlt⟩
  unfold select_read_user_tv_ticks
  rw [h1, Nat.mod_eq_of_lt hlt]

/-- Witness for C6 at the spec's sleep scenario: a `timeval` of
1.5 seconds converts to 150 ticks at `TIMER_HZ = 100`. -/
theorem select_read_user_tv_ticks_spec_witness :
    select_read_user_tv_ticks 100 1 500000 =
      min (1 * 100 + 500000 / (1000000 / 100)) (2 ^ 32 - 1) ∧
    1 * 100 + 500000 / (1000000 / 100) < 2 ^ 64 :=
  select_read_user_tv_ticks_spec 100 1 500000 (by decide) (by decide)
    (by decide) (by decide)

/-- Helper: the ready count accumulated by the `select_set_ready` loop
equals the number of bits left set in the bitset it writes. -/
theorem select_set_ready_fds_count (e : SelEnv) (k : Nat) (s : Nat → Bool)
    (l : List Nat) :
    (select_set_ready_fds e k s l).1.count true =
      (select_set_ready_fds e k s l).2 := by
  induction l with
  | nil => rfl
  | cons i rest ih =>
    simp only [select_set_ready_fds]
    by_cases hsi : s i
    · by_cases hr : e.handle i && e.ready k i
      · simp [hsi, hr, List.count_cons, ih]
      · simp [hsi, hr, List.count_cons, ih]
    · simp only [Bool.not_eq_true] at hsi
      simp [hsi, List.count_cons, ih]

/-- Helper: the bitset written by the `select_set_ready` loop has one bit
per scanned fd. -/
theorem select_set_ready_fds_length (e : SelEnv) (k : Nat) (s : Nat → Bool)
    (l : List Nat) :
    (select_set_ready_fds e k s l).1.length = l.length := by
  induction l with
  | nil => rfl
  | cons i rest ih =>
    simp only [select_set_ready_fds]
    by_cases hsi : s i
    · by_cases hr : e.handle i && e.ready k i
      · simp [hsi, hr, ih]
      · simp [hsi, hr, ih]
    · simp only [Bool.not_eq_true] at hsi
      simp [hsi, ih]

/-- Helper: bit `j` written by the `select_set_ready` loop is the
conjunction of the input bit with the fd's resolvability and readiness. -/
theorem select_set_ready_fds_getD (e : SelEnv) (k : Nat) (s : Nat → Bool)
    (l : List Nat) :
    ∀ j, j < l.length →
      (select_set_ready_fds e k s l).1.getD j false =
        (s (l.getD j 0) && (e.handle (l.getD j 0) && e.ready k (l.getD j 0))) := by
  induction l with
  | nil =>
    intro j hj
    simp at hj
  | cons i rest ih =>
    intro j hj
    cases j with
    | zero =>
      simp only [select_set_ready_fds, List.getD_cons_zero]
      by_cases hsi : s i
      · by_cases hr : e.handle i && e.ready k i
        · simp [hsi, hr]
        · simp only [Bool.not_eq_true] at hr
          simp [hsi, hr]
      · simp only [Bool.not_eq_true] at hsi
        simp [hsi]
    | succ j' =>
      have hj' : j' < rest.length := by
        simpa using Nat.lt_of_succ_lt_succ hj
      simp only [select_set_ready_fds, List.getD_cons_succ]
      by_cases hsi : s i
      · by_cases hr : e.handle i && e.ready k i
        · simpa [hsi, hr] using ih j' hj'
        · simpa [hsi, hr] using ih j' hj'
      · simpa [hsi] using ih j' hj'

/-- Helper: per-set version of the count property. -/
theorem select_set_ready_count (e : SelEnv) (nfds k : Nat)
    (set : Option (Nat → Bool)) :
    out_bits_count (select_set_ready e nfds k set).1 =
      (select_set_ready e nfds k set).2 := by
  cases set with
  | none => rfl
  | some s =>
    simp only [select_set_ready, out_bits_count]
    exact select_set_ready_fds_count e k s (List.range nfds)

/-- Helper: the return value of `select_write_user_sets` equals the total
number of bits set across the three output bitsets. -/
theorem select_write_user_sets_count (e : SelEnv) (nfds : Nat)
    (sets : Nat → Option (Nat → Bool)) :
    (select_write_user_sets e nfds sets).1 =
      ((out_sets_count (select_write_user_sets e nfds sets).2 : Nat) : Int) := by
  simp only [select_write_user_sets, out_sets_count, List.map_cons,
    List.map_nil, List.sum_cons, List.sum_nil,
    select_set_ready_count]
  push_cast
  ring

/-- Helper: bit `i` of output set `k` produced by
`select_write_user_sets` for a present input set. -/
theorem select_write_user_sets_bit (e : SelEnv) (nfds : Nat)
    (sets : Nat → Option (Nat → Bool)) (k : Nat) (s : Nat → Bool)
    (hk : k < 3) (hks : sets k = some s) (i : Nat) (hi : i < nfds) :
    out_bit (select_write_user_sets e nfds sets).2 k i =
      (s i && (e.handle i && e.ready k i)) := by
  have hlen : i < (List.range nfds).length := by simpa using hi
  have hget := select_set_ready_fds_getD e k s (List.range nfds) i hlen
  have hrange : (List.range nfds).getD i 0 = i := by
    simp [List.getD, List.getElem?_range, hi]
  rw [hrange] at hget
  interval_cases k <;>
    simp only [select_write_user_sets, out_bit, List.getD_cons_zero,
      List.getD_cons_succ, hks, select_set_ready] <;>
    exact hget

/-- Helper: every normal return of `sys_select` carries exactly the
value and bitsets produced by `select_write_user_sets` against the
environment at the recorded report instant. -/
theorem sys_select_done_ret_rsets (w : SelWorld) (n : Int)
    (us : Nat → Option (Nat → Bool)) (utv : Option (Nat × Nat))
    {ret : Int} {rsets : List (Option (List Bool))} {rtv : Option (Nat × Nat)}
    {slept : Bool} {rt : Nat}
    (h : sys_select w n us utv = .done ret rsets rtv slept rt) :
    ret = (select_write_user_sets (w.envs rt) n.toNat us).1 ∧
    rsets = (select_write_user_sets (w.envs rt) n.toNat us).2 := by
  unfold sys_select at h
  split at h
  · simp at h
  · dsimp only at h
    split at h
    · simp at h
    · split at h
      · split at h
        · simp at h
        · simp at h
        · simp only [select_finish] at h
          injection h with h1 h2 h3 h4 h5
          subst h5
          exact ⟨h1.symm, h2.symm⟩
        · simp only [select_finish] at h
          injection h with h1 h2 h3 h4 h5
          subst h5
          exact ⟨h1.symm, h2.symm⟩
        · simp only [select_finish] at h
          injection h with h1 h2 h3 h4 h5
          subst h5
          exact ⟨h1.symm, h2.symm⟩
      · split at h
        · simp only [select_finish] at h
          injection h with h1 h2 h3 h4 h5
          subst h5
          exact ⟨h1.symm, h2.symm⟩
        · simp only [select_finish] at h
          injection h with h1 h2 h3 h4 h5
          subst h5
          exact ⟨h1.symm, h2.symm⟩

/-- C4: for every successful `sys_select` call, the returned value is the
total number of bits still set across the three output sets, and every
bit set on input and cleared on output belongs to an fd whose readiness
predicate (for that set's kind) returned false at report time, assuming
the fd still resolved to a handle. -/
theorem sys_select_ready_count_spec (w : SelWorld) (n : Int)
    (us : Nat → Option (Nat → Bool)) (utv : Option (Nat × Nat))
    {ret : Int} {rsets : List (Option (List Bool))} {rtv : Option (Nat × Nat)}
    {slept : Bool} {rt : Nat}
    (h : sys_select w n us utv = .done ret rsets rtv slept rt) :
    ret = ((out_sets_count rsets : Nat) : Int) ∧
    ∀ k s, k < 3 → us k = some s → ∀ i, i < n.toNat → s i = true →
      out_bit rsets k i = false → (w.envs rt).handle i = true →
      (w.envs rt).ready k i = false := by
  obtain ⟨h1, h2⟩ := sys_select_done_ret_rsets w n us utv h
  subst h1
  subst h2
  refine ⟨select_write_user_sets_count _ _ _, ?_⟩
  intro k s hk hks i hi hsi hbit hh
  rw [select_write_user_sets_bit (w.envs rt) n.toNat us k s hk hks i hi]
    at hbit
  simpa [hsi, hh] using hbit

/-- Witness for C4: a poll call (`timeval` of zero) on an fd that
resolves but is not ready returns 0 with the bit cleared, and the
readiness predicate indeed returned false. -/
theorem sys_select_ready_count_spec_witness :
    (0 : Int) = ((out_sets_count [some [false], none, none] : Nat) : Int) ∧
    (selWorldNotReady.envs 0).ready 0 0 = false := by
  have h : sys_select selWorldNotReady 1 selSetBit0 (some (0, 0)) =
      .done 0 [some [false], none, none] (some (0, 0)) false 0 := by decide
  refine ⟨(sys_select_ready_count_spec selWorldNotReady 1 selSetBit0
    (some (0, 0)) h).1, ?_⟩
  exact (sys_select_ready_count_spec selWorldNotReady 1 selSetBit0
    (some (0, 0)) h).2 0 (fun i => i == 0) (by norm_num) rfl 0 (by norm_num)
    rfl (by decide) (by decide)

/-- C9: in the report phase, an fd set on input whose handle no longer
resolves at report time is silently cleared from the output set; the call
still returns the non-negative ready count instead of failing with
`-EBADF` at that stage. -/
theorem sys_select_stale_fd_cleared_spec (w : SelWorld) (n : Int)
    (us : Nat → Option (Nat → Bool)) (utv : Option (Nat × Nat))
    {ret : Int} {rsets : List (Option (List Bool))} {rtv : Option (Nat × Nat)}
    {slept : Bool} {rt : Nat}
    (h : sys_select w n us utv = .done ret rsets rtv slept rt) :
    (∀ k s, k < 3 → us k = some s → ∀ i, i < n.toNat → s i = true →
      (w.envs rt).handle i = false → out_bit rsets k i = false) ∧
    ret = ((out_sets_count rsets : Nat) : Int) ∧ 0 ≤ ret := by
  obtain ⟨h1, h2⟩ := sys_select_done_ret_rsets w n us utv h
  subst h1
  subst h2
  refine ⟨?_, select_write_user_sets_count _ _ _, ?_⟩
  · intro k s hk hks i hi hsi hh
    rw [select_write_user_sets_bit (w.envs rt) n.toNat us k s hk hks i hi]
    simp [hh]
  · rw [select_write_user_sets_count]
    exact Int.natCast_nonneg _

/-- Witness for C9: a poll call on a set bit whose fd has no handle at
all returns 0 with the bit silently cleared. -/
theorem sys_select_stale_fd_cleared_spec_witness :
    out_bit [some [false], none, none] 0 0 = false ∧
    (0 : Int) = ((out_sets_count [some [false], none, none] : Nat) : Int) ∧
    (0 : Int) ≤ 0 := by
  have h : sys_select selWorldNoHandles 1 selSetBit0 (some (0, 0)) =
      .done 0 [some [false], none, none] (some (0, 0)) false 0 := by decide
  have hspec := sys_select_stale_fd_cleared_spec selWorldNoHandles 1
    selSetBit0 (some (0, 0)) h
  exact ⟨hspec.1 0 (fun i => i == 0) (by norm_num) rfl 0 (by norm_num) rfl
    (by decide), hspec.2.1, hspec.2.2⟩

/-- C5: with a non-NULL zero `timeval` (so `timeout_ticks == 0`) and a
valid `nfds`, `sys_select` never blocks: `select_compute_cond_cnt` skips
the scan leaving `cond_cnt == 0`, the whole wait phase (waiter
allocation, condition subscription, timers, sleeping) is skipped, and
the call polls readiness once at the entry instant and returns. -/
theorem sys_select_zero_timeout_polls (w : SelWorld) (n : Int)
    (us : Nat → Option (Nat → Bool))
    (hn : ¬(n < 0 ∨ MAX_HANDLES < n)) :
    sys_select w n us (some (0, 0)) =
      select_finish (w.envs 0) n.toNat us (some (0, 0)) false 0 := by
  have ht : select_timeout_of (some (0, 0)) = 0 := by decide
  have hc : select_compute_cond_cnt (w.envs 0) n.toNat us true 0 =
      Except.ok 0 := by
    unfold select_compute_cond_cnt
    simp
  unfold sys_select
  rw [if_neg hn]
  dsimp only
  simp only [Option.isSome_some, ht, hc, lt_self_iff_false, if_false]

/-- Witness for C5: a poll call on a ready fd returns immediately with
the bit kept, having never blocked. -/
theorem sys_select_zero_timeout_polls_witness :
    sys_select selWorldFd0Ready 1 selSetBit0 (some (0, 0)) =
      select_finish (selWorldFd0Ready.envs 0) (1 : Int).toNat selSetBit0
        (some (0, 0)) false 0 ∧
    sys_select selWorldFd0Ready 1 selSetBit0 (some (0, 0)) =
      .done 1 [some [true], none, none] (some (0, 0)) false 0 :=
  ⟨sys_select_zero_timeout_polls selWorldFd0Ready 1 selSetBit0 (by decide),
   by decide⟩

/-- Helper: scanning a set that contains a set bit whose fd has no
handle aborts with `-EBADF`. -/
theorem select_count_cond_fds_bad (e : SelEnv) (k : Nat) (s : Nat → Bool)
    (l : List Nat) :
    ∀ cnt, (∃ i ∈ l, s i = true ∧ e.handle i = false) →
      select_count_cond_fds e k s l cnt = .error (-EBADF) := by
  induction l with
  | nil =>
    intro cnt h
    simp at h
  | cons j rest ih =>
    intro cnt h
    rcases h with ⟨i, hmem, hsi, hh⟩
    simp only [List.mem_cons] at hmem
    by_cases hsj : s j
    · by_cases hhj : e.handle j
      · have hrest : ∃ i ∈ rest, s i = true ∧ e.handle i = false := by
          rcases hmem with h1 | h2
          · subst h1
            rw [hhj] at hh
            cases hh
          · exact ⟨i, h2, hsi, hh⟩
        simp only [select_count_cond_fds, hsj, hhj, if_true]
        exact ih _ hrest
      · simp only [Bool.not_eq_true] at hhj
        simp [select_count_cond_fds, hsj, hhj]
    · have hrest : ∃ i ∈ rest, s i = true ∧ e.handle i = false := by
        rcases hmem with h1 | h2
        · subst h1
          rw [hsi] at hsj
          cases hsj rfl
        · exact ⟨i, h2, hsi, hh⟩
      simp only [Bool.not_eq_true] at hsj
      simp only [select_count_cond_fds, hsj, Bool.false_eq_true, if_false]
      exact ih _ hrest

/-- Helper: scanning a set in which every set bit resolves to a handle
returns some accumulated count. -/
theorem select_count_cond_fds_ok (e : SelEnv) (k : Nat) (s : Nat → Bool)
    (l : List Nat) :
    ∀ cnt, (∀ i ∈ l, s i = true → e.handle i = true) →
      ∃ m, select_count_cond_fds e k s l cnt = .ok m := by
  induction l with
  | nil =>
    intro cnt _
    exact ⟨cnt, rfl⟩
  | cons j rest ih =>
    intro cnt hgood
    by_cases hsj : s j
    · have hhj : e.handle j = true := hgood j (List.mem_cons_self j rest) hsj
      simp only [select_count_cond_fds, hsj, hhj, if_true]
      exact ih _ fun i hi hsi => hgood i (List.mem_cons_of_mem j hi) hsi
    · simp only [Bool.not_eq_true] at hsj
      simp only [select_count_cond_fds, hsj, Bool.false_eq_true, if_false]
      exact ih _ fun i hi hsi => hgood i (List.mem_cons_of_mem j hi) hsi

/-- Helper: per-set bad-fd scan result. -/
theorem select_count_cond_per_set_bad (e : SelEnv) (nfds k : Nat)
    (set : Option (Nat → Bool)) (cnt : Nat)
    (h : set_has_bad_fd e nfds set) :
    select_count_cond_per_set e nfds k set cnt = .error (-EBADF) := by
  rcases h with ⟨s, hset, i, hi, hsi, hh⟩
  subst hset
  simp only [select_count_cond_per_set]
  exact select_count_cond_fds_bad e k s (List.range nfds) cnt
    ⟨i, List.mem_range.mpr hi, hsi, hh⟩

/-- Helper: per-set scan with no bad fd succeeds. -/
theorem select_count_cond_per_set_ok (e : SelEnv) (nfds k : Nat)
    (set : Option (Nat → Bool)) (cnt : Nat)
    (h : ¬ set_has_bad_fd e nfds set) :
    ∃ m, select_count_cond_per_set e nfds k set cnt = .ok m := by
  cases set with
  | none => exact ⟨cnt, rfl⟩
  | some s =>
    refine select_count_cond_fds_ok e k s (List.range nfds) cnt ?_
    intro i hmem hsi
    by_contra hhf
    apply h
    simp only [Bool.not_eq_true] at hhf
    exact ⟨s, rfl, i, List.mem_range.mp hmem, hsi, hhf⟩

/-- Helper: when the scan is not skipped, a bad fd in any of the three
sets makes `select_compute_cond_cnt` fail with `-EBADF`. -/
theorem select_compute_cond_cnt_bad (e : SelEnv) (nfds : Nat)
    (sets : Nat → Option (Nat → Bool)) (tvP : Bool) (ticks : Nat)
    (hcond : tvP = false ∨ 0 < ticks)
    (hbad : has_bad_fd e nfds sets) :
    select_compute_cond_cnt e nfds sets tvP ticks = .error (-EBADF) := by
  unfold select_compute_cond_cnt
  rw [if_pos hcond]
  rcases hbad with ⟨k, hk, s, hks, i, hi, hsi, hh⟩
  have hbadk : set_has_bad_fd e nfds (sets k) := ⟨s, hks, i, hi, hsi, hh⟩
  by_cases hb0 : set_has_bad_fd e nfds (sets 0)
  · rw [select_count_cond_per_set_bad e nfds 0 (sets 0) 0 hb0]
  · obtain ⟨m0, h0⟩ := select_count_cond_per_set_ok e nfds 0 (sets 0) 0 hb0
    rw [h0]
    dsimp only
    by_cases hb1 : set_has_bad_fd e nfds (sets 1)
    · rw [select_count_cond_per_set_bad e nfds 1 (sets 1) m0 hb1]
    · obtain ⟨m1, h1⟩ := select_count_cond_per_set_ok e nfds 1 (sets 1) m0 hb1
      rw [h1]
      dsimp only
      have hb2 : set_has_bad_fd e nfds (sets 2) := by
        interval_cases k
        · exact absurd hbadk hb0
        · exact absurd hbadk hb1
        · exact hbadk
      rw [select_count_cond_per_set_bad e nfds 2 (sets 2) m1 hb2]

/-- Counterexample to C2 as stated: with a non-NULL `timeval` equal to
zero, the bad-fd scan is skipped (`select_compute_cond_cnt` runs only
when `!tv || timeout_ticks > 0`), so a set bit whose fd has no handle
does not produce `-EBADF`: the call returns 0 with the bit silently
cleared. -/
theorem sys_select_zero_tv_bad_fd_cex :
    (selWorldNoHandles.envs 0).handle 0 = false ∧
    (∃ s, selSetBit0 0 = some s ∧ s 0 = true) ∧
    sys_select selWorldNoHandles 1 selSetBit0 (some (0, 0)) =
      .done 0 [some [false], none, none] (some (0, 0)) false 0 ∧
    sys_select selWorldNoHandles 1 selSetBit0 (some (0, 0)) ≠
      .fail (-EBADF) := by
  refine ⟨by decide, ⟨fun i => i == 0, rfl, rfl⟩, by decide, by decide⟩

/-- C2 (amended): a set bit whose fd does not resolve to a VFS handle
makes `sys_select` return `-EBADF`, provided the timeout argument is
NULL or the derived `timeout_ticks` is positive; with a non-NULL zero
`timeval` the scan is skipped and the bad fd is instead silently cleared
at report time. -/
theorem sys_select_bad_fd_ebadf (w : SelWorld) (n : Int)
    (us : Nat → Option (Nat → Bool)) (utv : Option (Nat × Nat))
    (hn : ¬(n < 0 ∨ MAX_HANDLES < n))
    (htv : utv = none ∨ 0 < select_timeout_of utv)
    (hbad : has_bad_fd (w.envs 0) n.toNat us) :
    sys_select w n us utv = .fail (-EBADF) := by
  have hcond : utv.isSome = false ∨ 0 < select_timeout_of utv := by
    rcases htv with h | h
    · left
      rw [h]
      rfl
    · right
      exact h
  unfold sys_select
  rw [if_neg hn]
  dsimp only
  rw [select_compute_cond_cnt_bad (w.envs 0) n.toNat us utv.isSome
    (select_timeout_of utv) hcond hbad]

/-- Witness for the amended C2: with a NULL timeout and fd 0 set in the
read set but not resolving, the call fails with `-EBADF`. -/
theorem sys_select_bad_fd_ebadf_witness :
    sys_select selWorldNoHandles 1 selSetBit0 none = .fail (-EBADF) :=
  sys_select_bad_fd_ebadf selWorldNoHandles 1 selSetBit0 none (by decide)
    (Or.inl rfl)
    ⟨0, by norm_num, fun i => i == 0, rfl, 0, by norm_num, rfl, rfl⟩

/-- Helper: a bus state's rank is at most 2. -/
theorem BusState.rank_le_two (s : BusState) : s.rank ≤ 2 := by
  cases s <;> simp [BusState.rank]

/-- Helper: `buses_advance` is reflexive. -/
theorem buses_advance_refl (f : Nat → BusState) : buses_advance f f :=
  fun _ => le_refl _

/-- Helper: `buses_advance` is transitive. -/
theorem buses_advance_trans {f g h : Nat → BusState}
    (h1 : buses_advance f g) (h2 : buses_advance g h) :
    buses_advance f h :=
  fun b => le_trans (h1 b) (h2 b)

/-- Helper: a visited entry stays visited across any advancing step. -/
theorem buses_advance_visited {f g : Nat → BusState} (h : buses_advance f g)
    (b : Nat) (hb : f b = .visited) : g b = .visited := by
  have h1 := h b
  rw [hb] at h1
  cases hg : g b <;> rw [hg] at h1 <;> simp [BusState.rank] at h1 ⊢

/-- Helper: an entry past `NOT_VISITED` never returns to it. -/
theorem buses_advance_not_nv {f g : Nat → BusState} (h : buses_advance f g)
    (b : Nat) (hb : f b ≠ .not_visited) : g b ≠ .not_visited := by
  have h1 := h b
  intro hg
  rw [hg] at h1
  cases hf : f b <;> rw [hf] at h1 <;>
    simp [BusState.rank] at h1 <;> exact hb hf

/-- Helper: `pci_marks_only` is reflexive. -/
theorem pci_marks_only_refl (st : PciState) : pci_marks_only st st :=
  ⟨rfl, fun _ => Or.inl rfl, [], by simp, by simp⟩

/-- Helper: a marks-only step advances every bus entry. -/
theorem pci_marks_only_advance {st st' : PciState}
    (h : pci_marks_only st st') : buses_advance st.buses st'.buses := by
  intro b
  rcases h.2.1 b with heq | ⟨h1, h2⟩
  · rw [heq]
  · rw [h1, h2]
    simp [BusState.rank]

/-- Helper: `pci_marks_only` is transitive. -/
theorem pci_marks_only_trans {s1 s2 s3 : PciState}
    (h12 : pci_marks_only s1 s2) (h23 : pci_marks_only s2 s3) :
    pci_marks_only s1 s3 := by
  obtain ⟨hl12, hb12, nm12, hm12, hmg12⟩ := h12
  obtain ⟨hl23, hb23, nm23, hm23, hmg23⟩ := h23
  refine ⟨hl23.trans hl12, ?_, nm12 ++ nm23, by rw [hm23, hm12, List.append_assoc], ?_⟩
  · intro b
    rcases hb23 b with heq | ⟨h1, h2⟩
    · rw [heq]
      exact hb12 b
    · rcases hb12 b with heq' | ⟨h1', h2'⟩
      · rw [heq'] at h1
        exact Or.inr ⟨h1, h2⟩
      · rw [h2'] at h1
        cases h1
  · intro b hb
    rcases List.mem_append.mp hb with hb' | hb'
    · have := hmg12 b hb'
      exact ⟨buses_advance_not_nv (pci_marks_only_advance
        ⟨hl23, hb23, nm23, hm23, hmg23⟩) b this.1, this.2⟩
    · exact hmg23 b hb'

/-- Helper: `pci_mark_bus_to_visit` performs a marks-only step for any
bus number below 256. -/
theorem pci_mark_bus_to_visit_marks_only (st : PciState) (bus : Nat)
    (hb : bus < 256) :
    pci_marks_only st (pci_mark_bus_to_visit st bus) := by
  unfold pci_mark_bus_to_visit
  by_cases h : st.buses bus = .not_visited
  · rw [if_pos h]
    refine ⟨rfl, ?_, [bus], rfl, ?_⟩
    · intro b
      by_cases hbb : b = bus
      · subst hbb
        exact Or.inr ⟨h, by simp [Function.update_same]⟩
      · exact Or.inl (by simp [Function.update_noteq hbb])
    · intro b hmem
      rw [List.mem_singleton] at hmem
      subst hmem
      simp [Function.update_same, hb]
  · rw [if_neg h]
    exact pci_marks_only_refl st

/-- Helper: folding any marks-only step over a list is marks-only. -/
theorem pci_foldl_marks_only {α : Type} (f : PciState → α → PciState)
    (l : List α) (hf : ∀ s a, a ∈ l → pci_marks_only s (f s a)) :
    ∀ s, pci_marks_only s (l.foldl f s) := by
  induction l with
  | nil => intro s; exact pci_marks_only_refl s
  | cons a rest ih =>
    intro s
    simp only [List.foldl_cons]
    exact pci_marks_only_trans
      (hf s a (List.mem_cons_self a rest))
      (ih (fun s' a' ha' => hf s' a' (List.mem_cons_of_mem a ha')) (f s a))

/-- Helper: the bridge range loop is marks-only. -/
theorem pci_mark_bus_range_marks_only (st : PciState) (s1 s2 : Nat) :
    pci_marks_only st (pci_mark_bus_range st s1 s2) := by
  unfold pci_mark_bus_range
  exact pci_foldl_marks_only _ _
    (fun s i _ => pci_mark_bus_to_visit_marks_only s (i % 256)
      (Nat.mod_lt _ (by norm_num))) st

/-- Helper: `pci_discover_device_func` only marks buses. -/
theorem pci_discover_device_func_marks_only (env : PciEnv)
    (loc : pci_device_loc) (nfo : Option PciDevInfo) (st : PciState) :
    pci_marks_only st (pci_discover_device_func env loc nfo st).1 := by
  unfold pci_discover_device_func
  cases hinfo : (if loc.func ≠ 0 then env.dev_info loc else nfo) with
  | none => exact pci_marks_only_refl st
  | some info =>
    dsimp only
    by_cases hbr : info.class_id = 0x06 ∧ info.subclass_id = 0x04
    · rw [if_pos hbr]
      by_cases hok : info.bridge_regs_ok
      · rw [if_pos hok]
        exact pci_mark_bus_range_marks_only st _ _
      · rw [if_neg hok]
        exact pci_marks_only_refl st
    · rw [if_neg hbr]
      exact pci_marks_only_refl st

/-- Helper: `pci_discover_device` only marks buses. -/
theorem pci_discover_device_marks_only (env : PciEnv)
    (loc : pci_device_loc) (st : PciState) :
    pci_marks_only st (pci_discover_device env loc st).1 := by
  unfold pci_discover_device
  cases hinfo : env.dev_info loc with
  | none => exact pci_marks_only_refl st
  | some nfo =>
    dsimp only
    have h1 := pci_discover_device_func_marks_only env loc (some nfo) st
    by_cases hr : (pci_discover_device_func env loc (some nfo) st).2 = false
    · rw [if_pos hr]
      exact h1
    · rw [if_neg hr]
      by_cases hmf : nfo.multi_func
      · rw [if_pos hmf]
        exact pci_marks_only_trans h1
          (pci_foldl_marks_only _ _
            (fun s func _ =>
              pci_discover_device_func_marks_only env
                { loc with func := func } none s) _)
      · rw [if_neg hmf]
        exact h1

/-- Helper: structural properties of one `pci_discover_bus` call: the
bus is appended to the visit trace and set `VISITED` (before the device
scan, which then only marks), every other entry changes at most from
`NOT_VISITED` to `TO_VISIT`, the state advances pointwise, and the mark
trace grows only by buses below 256 left non-`NOT_VISITED`. -/
theorem pci_discover_bus_props (env : PciEnv) (seg bus : Nat)
    (st : PciState) :
    (pci_discover_bus env seg bus st).visit_log = st.visit_log ++ [bus] ∧
    (pci_discover_bus env seg bus st).buses bus = .visited ∧
    (∀ b, b ≠ bus →
      ((pci_discover_bus env seg bus st).buses b = st.buses b ∨
        (st.buses b = .not_visited ∧
          (pci_discover_bus env seg bus st).buses b = .to_visit))) ∧
    buses_advance st.buses (pci_discover_bus env seg bus st).buses ∧
    ∃ nm, (pci_discover_bus env seg bus st).mark_log = st.mark_log ++ nm ∧
      ∀ b ∈ nm, (pci_discover_bus env seg bus st).buses b ≠ .not_visited ∧
        b < 256 := by
  unfold pci_discover_bus
  dsimp only
  set st1 := pci_mark_bus_as_visited
    { st with visit_log := st.visit_log ++ [bus] } bus with hst1
  have hmo : pci_marks_only st1
      ((List.range 32).foldl
        (fun s dev => (pci_discover_device env ⟨seg, bus, dev, 0⟩ s).1) st1) :=
    pci_foldl_marks_only _ _
      (fun s dev _ => pci_discover_device_marks_only env ⟨seg, bus, dev, 0⟩ s)
      st1
  obtain ⟨hlog, hbu, nm, hnm, hnmg⟩ := hmo
  have hst1bus : st1.buses bus = .visited := by
    simp [hst1, pci_mark_bus_as_visited, Function.update_same]
  have hst1log : st1.visit_log = st.visit_log ++ [bus] := rfl
  have hst1mark : st1.mark_log = st.mark_log := rfl
  have hst1other : ∀ b, b ≠ bus → st1.buses b = st.buses b := by
    intro b hb
    simp [hst1, pci_mark_bus_as_visited, Function.update_noteq hb]
  refine ⟨by rw [hlog, hst1log], ?_, ?_, ?_, nm, by rw [hnm, hst1mark], hnmg⟩
  · rcases hbu bus with heq | ⟨h1, _⟩
    · rw [heq, hst1bus]
    · rw [hst1bus] at h1
      cases h1
  · intro b hb
    rcases hbu b with heq | ⟨h1, h2⟩
    · rw [heq, hst1other b hb]
      exact Or.inl rfl
    · rw [hst1other b hb] at h1
      exact Or.inr ⟨h1, h2⟩
  · intro b
    by_cases hb : b = bus
    · subst hb
      rcases hbu b with heq | ⟨h1, _⟩
      · rw [heq, hst1bus]
        exact BusState.rank_le_two _
      · rw [hst1bus] at h1
        cases h1
    · rcases hbu b with heq | ⟨h1, h2⟩
      · rw [heq, hst1other b hb]
      · rw [hst1other b hb] at h1
        rw [h1, h2]
        simp [BusState.rank]

/-- Helper: `pci_discover_bus` keeps the run invariant whenever the
visited bus was not already visited. -/
theorem pci_discover_bus_inv (env : PciEnv) (seg bus : Nat)
    (st : PciState) (hinv : pci_inv st)
    (hbus : st.buses bus ≠ .visited) :
    pci_inv (pci_discover_bus env seg bus st) := by
  obtain ⟨hiff, hnodup, hmarks⟩ := hinv
  obtain ⟨hlog, hvis, hother, hadv, nm, hnm, hnmg⟩ :=
    pci_discover_bus_props env seg bus st
  have hnotmem : bus ∉ st.visit_log := fun hmem => hbus ((hiff bus).mpr hmem)
  refine ⟨?_, ?_, ?_⟩
  · intro b
    rw [hlog]
    by_cases hb : b = bus
    · subst hb
      simp [hvis]
    · rcases hother b hb with heq | ⟨h1, h2⟩
      · rw [heq]
        simp [hiff b, hb]
      · rw [h2]
        simp only [List.mem_append, List.mem_singleton]
        constructor
        · intro hcontra
          cases hcontra
        · intro hcontra
          rcases hcontra with hmem | hmem
          · have := (hiff b).mpr hmem
            rw [h1] at this
            cases this
          · exact absurd hmem hb
  · rw [hlog]
    simp [List.nodup_append, hnodup, hnotmem]
  · intro b hb
    rw [hnm] at hb
    rcases List.mem_append.mp hb with hb' | hb'
    · have := hmarks b hb'
      exact ⟨buses_advance_not_nv hadv b this.1, this.2⟩
    · exact hnmg b hb'

/-- Helper: the unvisited count of one run state is at most 256. -/
theorem nv_count_le (st : PciState) : nv_count st ≤ 256 := by
  unfold nv_count
  calc ((Finset.range 256).filter (fun b => st.buses b ≠ .visited)).card ≤
      (Finset.range 256).card := Finset.card_filter_le _ _
    _ = 256 := Finset.card_range 256

/-- Helper: an advancing step never increases the unvisited count. -/
theorem nv_count_mono {st st' : PciState}
    (h : buses_advance st.buses st'.buses) : nv_count st' ≤ nv_count st := by
  unfold nv_count
  apply Finset.card_le_card
  intro b hb
  simp only [Finset.mem_filter, Finset.mem_range] at hb ⊢
  refine ⟨hb.1, ?_⟩
  intro hv
  exact hb.2 (buses_advance_visited h b hv)

/-- Helper: an advancing step that newly visits a bus below 256 strictly
decreases the unvisited count. -/
theorem nv_count_lt {st st' : PciState}
    (h : buses_advance st.buses st'.buses) (bus : Nat) (hb : bus < 256)
    (h1 : st.buses bus ≠ .visited) (h2 : st'.buses bus = .visited) :
    nv_count st' < nv_count st := by
  unfold nv_count
  apply Finset.card_lt_card
  constructor
  · intro b hbm
    simp only [Finset.mem_filter, Finset.mem_range] at hbm ⊢
    refine ⟨hbm.1, ?_⟩
    intro hv
    exact hbm.2 (buses_advance_visited h b hv)
  · intro hsub
    have hmem : bus ∈ (Finset.range 256).filter
        (fun b => st.buses b ≠ .visited) := by
      simp only [Finset.mem_filter, Finset.mem_range]
      exact ⟨hb, h1⟩
    have := hsub hmem
    simp only [Finset.mem_filter, Finset.mem_range] at this
    exact this.2 h2

/-- Helper: properties of folding the sweep body over any list of bus
numbers below 256: the state advances, the visit counter never
decreases, the unvisited count never increases and strictly decreases as
soon as one visit happened, a sweep that visited nothing left the state
untouched and found no `TO_VISIT` entry, and the run invariant is
preserved. -/
theorem pci_sweep_fold_spec (env : PciEnv) (seg : Nat) (l : List Nat) :
    ∀ (st : PciState) (c : Nat), (∀ b ∈ l, b < 256) →
      buses_advance st.buses
        ((l.foldl (pci_sweep_step env seg) (st, c)).1).buses ∧
      c ≤ (l.foldl (pci_sweep_step env seg) (st, c)).2 ∧
      nv_count (l.foldl (pci_sweep_step env seg) (st, c)).1 ≤ nv_count st ∧
      ((l.foldl (pci_sweep_step env seg) (st, c)).2 = c →
        (l.foldl (pci_sweep_step env seg) (st, c)).1 = st ∧
        ∀ b ∈ l, st.buses b ≠ .to_visit) ∧
      (c < (l.foldl (pci_sweep_step env seg) (st, c)).2 →
        nv_count (l.foldl (pci_sweep_step env seg) (st, c)).1 < nv_count st) ∧
      (pci_inv st → pci_inv (l.foldl (pci_sweep_step env seg) (st, c)).1) := by
  induction l with
  | nil =>
    intro st c _
    refine ⟨buses_advance_refl _, le_refl _, le_refl _, ?_, ?_, fun h => h⟩
    · intro _
      exact ⟨rfl, by simp⟩
    · intro h
      exact absurd h (lt_irrefl c)
  | cons bus rest ih =>
    intro st c hl
    have hbus256 : bus < 256 := hl bus (List.mem_cons_self bus rest)
    have hlrest : ∀ b ∈ rest, b < 256 :=
      fun b hb => hl b (List.mem_cons_of_mem bus hb)
    simp only [List.foldl_cons]
    by_cases htv : st.buses bus = .to_visit
    · have hstep : pci_sweep_step env seg (st, c) bus =
          (pci_discover_bus env seg bus st, c + 1) := by
        simp [pci_sweep_step, htv]
      rw [hstep]
      obtain ⟨hadv1, hle1, hnv1, _, _, hinv1⟩ :=
        ih (pci_discover_bus env seg bus st) (c + 1) hlrest
      obtain ⟨_, hvis, _, hadv0, _⟩ := pci_discover_bus_props env seg bus st
      have hne : st.buses bus ≠ .visited := by
        rw [htv]
        intro h
        exact BusState.noConfusion h
      have hnv0 : nv_count (pci_discover_bus env seg bus st) < nv_count st :=
        nv_count_lt hadv0 bus hbus256 hne hvis
      refine ⟨buses_advance_trans hadv0 hadv1,
        le_trans (Nat.le_succ c) hle1,
        le_trans hnv1 (le_of_lt hnv0), ?_, ?_, ?_⟩
      · intro hfix
        exfalso
        omega
      · intro _
        exact lt_of_le_of_lt hnv1 hnv0
      · intro hinv
        exact hinv1 (pci_discover_bus_inv env seg bus st hinv hne)
    · have hstep : pci_sweep_step env seg (st, c) bus = (st, c) := by
        simp [pci_sweep_step, htv]
      rw [hstep]
      obtain ⟨hadv1, hle1, hnv1, hfix, hlt, hinv1⟩ := ih st c hlrest
      refine ⟨hadv1, hle1, hnv1, ?_, hlt, hinv1⟩
      intro hc
      obtain ⟨hst, hrest⟩ := hfix hc
      refine ⟨hst, ?_⟩
      intro b hb
      rcases List.mem_cons.mp hb with h1 | h1
      · subst h1
        exact htv
      · exact hrest b h1

/-- Helper: specialization of the fold properties to one full sweep. -/
theorem pci_discover_sweep_spec (env : PciEnv) (seg : Nat) (st : PciState) :
    buses_advance st.buses (pci_discover_sweep env seg st).1.buses ∧
    nv_count (pci_discover_sweep env seg st).1 ≤ nv_count st ∧
    ((pci_discover_sweep env seg st).2 = 0 →
      (pci_discover_sweep env seg st).1 = st ∧
      ∀ b ∈ List.range' 1 255, st.buses b ≠ .to_visit) ∧
    (0 < (pci_discover_sweep env seg st).2 →
      nv_count (pci_discover_sweep env seg st).1 < nv_count st) ∧
    (pci_inv st → pci_inv (pci_discover_sweep env seg st).1) := by
  unfold pci_discover_sweep
  have h := pci_sweep_fold_spec env seg (List.range' 1 255) st 0
    (fun b hb => by
      have := List.mem_range'_1.mp hb
      omega)
  exact ⟨h.1, h.2.2.1, h.2.2.2.1, h.2.2.2.2.1, h.2.2.2.2.2⟩

/-- Helper: the repeat-sweep loop advances the state, preserves the run
invariant, and with fuel exceeding the unvisited count it reaches its
exit condition leaving no `TO_VISIT` entry among buses 1..255. -/
theorem pci_sweep_loop_spec (env : PciEnv) (seg : Nat) :
    ∀ (fuel : Nat) (st : PciState),
      buses_advance st.buses
        (pci_discover_sweep_loop env seg fuel st).1.buses ∧
      (pci_inv st → pci_inv (pci_discover_sweep_loop env seg fuel st).1) ∧
      (nv_count st < fuel →
        (pci_discover_sweep_loop env seg fuel st).2 = true ∧
        ∀ b, 1 ≤ b → b < 256 →
          (pci_discover_sweep_loop env seg fuel st).1.buses b ≠ .to_visit) := by
  intro fuel
  induction fuel with
  | zero =>
    intro st
    refine ⟨buses_advance_refl _, fun h => h, ?_⟩
    intro h
    omega
  | succ fuel ih =>
    intro st
    simp only [pci_discover_sweep_loop]
    obtain ⟨hadv, hnv, hfix, hlt, hinv⟩ := pci_discover_sweep_spec env seg st
    by_cases hvc : 0 < (pci_discover_sweep env seg st).2
    · rw [if_pos hvc]
      obtain ⟨hadv1, hinv1, hterm1⟩ := ih (pci_discover_sweep env seg st).1
      refine ⟨buses_advance_trans hadv hadv1, fun h => hinv1 (hinv h), ?_⟩
      intro hcount
      have hstep : nv_count (pci_discover_sweep env seg st).1 < fuel := by
        have := hlt hvc
        omega
      exact hterm1 hstep
    · rw [if_neg hvc]
      have hvc0 : (pci_discover_sweep env seg st).2 = 0 := by omega
      obtain ⟨hst, hnotv⟩ := hfix hvc0
      refine ⟨by rw [hst]; exact buses_advance_refl _,
        by rw [hst]; exact fun h => h, ?_⟩
      intro _
      refine ⟨rfl, ?_⟩
      intro b hb1 hb256
      rw [hst]
      exact hnotv b (List.mem_range'_1.mpr ⟨hb1, by omega⟩)

/-- Helper: the zero-initialized bus vector with empty traces satisfies
the run invariant. -/
theorem pci_inv_init : pci_inv initPciState := by
  refine ⟨?_, List.nodup_nil, ?_⟩
  · intro b
    simp [initPciState]
  · intro b hb
    simp [initPciState] at hb

/-- Helper: the multi-controller loop advances the state. -/
theorem pci_discover_multi_advance (env : PciEnv) (seg : Nat) :
    ∀ (fuel func : Nat) (st : PciState),
      buses_advance st.buses
        (pci_discover_multi env seg func fuel st).buses := by
  intro fuel
  induction fuel with
  | zero =>
    intro func st
    exact buses_advance_refl _
  | succ fuel ih =>
    intro func st
    simp only [pci_discover_multi]
    cases hroot : env.dev_info ⟨0, 0, 0, func⟩ with
    | none => exact buses_advance_refl _
    | some nfo =>
      exact buses_advance_trans
        (pci_discover_bus_props env seg func st).2.2.2.1
        (ih (func + 1) (pci_discover_bus env seg func st))

/-- Helper: the multi-controller loop preserves the run invariant when
every already-visited bus number is below the next function index, and
it leaves the starting bus visited when its host-bridge function
answers. -/
theorem pci_discover_multi_spec (env : PciEnv) (seg : Nat) :
    ∀ (fuel func : Nat) (st : PciState),
      pci_inv st → (∀ b ∈ st.visit_log, b < func) →
      pci_inv (pci_discover_multi env seg func fuel st) ∧
      (∀ nfo0, env.dev_info ⟨0, 0, 0, func⟩ = some nfo0 →
        fuel = 0 ∨
          (pci_discover_multi env seg func fuel st).buses func = .visited) := by
  intro fuel
  induction fuel with
  | zero =>
    intro func st hinv _
    exact ⟨hinv, fun _ _ => Or.inl rfl⟩
  | succ fuel ih =>
    intro func st hinv hlog
    simp only [pci_discover_multi]
    cases hroot : env.dev_info ⟨0, 0, 0, func⟩ with
    | none => exact ⟨hinv, fun nfo0 h => Option.noConfusion h⟩
    | some nfo =>
      have hfn : st.buses func ≠ .visited := by
        intro hv
        have := hlog func ((hinv.1 func).mp hv)
        omega
      obtain ⟨hlogeq, hvis, _, hadv0, _⟩ :=
        pci_discover_bus_props env seg func st
      have hinv' := pci_discover_bus_inv env seg func st hinv hfn
      have hlog' : ∀ b ∈ (pci_discover_bus env seg func st).visit_log,
          b < func + 1 := by
        intro b hb
        rw [hlogeq] at hb
        rcases List.mem_append.mp hb with h1 | h1
        · have := hlog b h1
          omega
        · rw [List.mem_singleton] at h1
          omega
      obtain ⟨hinv1, _⟩ := ih (func + 1) _ hinv' hlog'
      refine ⟨hinv1, ?_⟩
      intro nfo0 _
      right
      exact buses_advance_visited
        (pci_discover_multi_advance env seg fuel (func + 1) _) func hvis

/-- Helper: `pci_discover_segment` advances the bus vector from any
starting state. -/
theorem pci_discover_segment_advance (env : PciEnv) (seg fuel : Nat)
    (st : PciState) :
    buses_advance st.buses
      (pci_discover_segment env seg fuel st).1.buses := by
  unfold pci_discover_segment
  cases hroot : env.dev_info ⟨0, 0, 0, 0⟩ with
  | none => exact buses_advance_refl _
  | some nfo =>
    dsimp only
    by_cases hm : nfo.multi_func = false
    · rw [if_pos hm]
      exact buses_advance_trans
        (pci_discover_bus_props env seg 0 st).2.2.2.1
        (pci_sweep_loop_spec env seg fuel _).1
    · rw [if_neg hm]
      exact buses_advance_trans
        (pci_discover_multi_advance env seg 8 0 st)
        (pci_sweep_loop_spec env seg fuel _).1

/-- Helper: with fuel 257 (one sweep more than the 256 possible visits)
the repeat-sweep loop of `pci_discover_segment` always reaches its exit
condition, whatever the starting state and configuration space. -/
theorem pci_discover_segment_terminates (env : PciEnv) (seg : Nat)
    (st : PciState) :
    (pci_discover_segment env seg 257 st).2 = true := by
  unfold pci_discover_segment
  cases hroot : env.dev_info ⟨0, 0, 0, 0⟩ with
  | none => rfl
  | some nfo =>
    dsimp only
    by_cases hm : nfo.multi_func = false
    · rw [if_pos hm]
      exact ((pci_sweep_loop_spec env seg 257 _).2.2
        (lt_of_le_of_lt (nv_count_le _) (by norm_num))).1
    · rw [if_neg hm]
      exact ((pci_sweep_loop_spec env seg 257 _).2.2
        (lt_of_le_of_lt (nv_count_le _) (by norm_num))).1

/-- Helper: a pristine enumeration run establishes the run invariant,
completes its repeat-sweep loop, and leaves no entry in `TO_VISIT`. -/
theorem pci_discover_segment_run (env : PciEnv) (seg : Nat) :
    pci_inv (pci_discover_segment env seg 257 initPciState).1 ∧
    (pci_discover_segment env seg 257 initPciState).2 = true ∧
    ∀ b, b < 256 →
      (pci_discover_segment env seg 257 initPciState).1.buses b ≠
        .to_visit := by
  unfold pci_discover_segment
  cases hroot : env.dev_info ⟨0, 0, 0, 0⟩ with
  | none =>
    refine ⟨pci_inv_init, rfl, ?_⟩
    intro b _
    simp [initPciState]
  | some nfo =>
    dsimp only
    by_cases hm : nfo.multi_func = false
    · rw [if_pos hm]
      have h0nv : initPciState.buses 0 ≠ .visited := by
        simp [initPciState]
      have hinv1 := pci_discover_bus_inv env seg 0 initPciState
        pci_inv_init h0nv
      have hvis0 := (pci_discover_bus_props env seg 0 initPciState).2.1
      obtain ⟨hadvL, hinvL, htermL⟩ := pci_sweep_loop_spec env seg 257
        (pci_discover_bus env seg 0 initPciState)
      obtain ⟨hterm, hnotv⟩ :=
        htermL (lt_of_le_of_lt (nv_count_le _) (by norm_num))
      refine ⟨hinvL hinv1, hterm, ?_⟩
      intro b hb
      by_cases hb0 : b = 0
      · subst hb0
        rw [buses_advance_visited hadvL 0 hvis0]
        intro hcontra
        exact BusState.noConfusion hcontra
      · exact hnotv b (by omega) hb
    · rw [if_neg hm]
      obtain ⟨hinvM, hvisM⟩ := pci_discover_multi_spec env seg 8 0
        initPciState pci_inv_init
        (by intro b hb; simp [initPciState] at hb)
      have hvis0 : (pci_discover_multi env seg 0 8 initPciState).buses 0 =
          .visited := by
        rcases hvisM nfo hroot with h8 | hv
        · exact absurd h8 (by norm_num)
        · exact hv
      obtain ⟨hadvL, hinvL, htermL⟩ := pci_sweep_loop_spec env seg 257
        (pci_discover_multi env seg 0 8 initPciState)
      obtain ⟨hterm, hnotv⟩ :=
        htermL (lt_of_le_of_lt (nv_count_le _) (by norm_num))
      refine ⟨hinvL hinvM, hterm, ?_⟩
      intro b hb
      by_cases hb0 : b = 0
      · subst hb0
        rw [buses_advance_visited hadvL 0 hvis0]
        intro hcontra
        exact BusState.noConfusion hcontra
      · exact hnotv b (by omega) hb

/-- C3: after a pristine `pci_discover_segment` run completes (fuel 257
always reaches the loop's exit condition), the 256-entry bus-state
vector contains no entry left in `TO_VISIT`, no bus was ever visited
twice, and every bus that a discovered PCI-to-PCI bridge marked via its
secondary..subordinate range appears in the visit trace exactly once. -/
theorem pci_discover_segment_complete (env : PciEnv) (seg : Nat) :
    (pci_discover_segment env seg 257 initPciState).2 = true ∧
    (∀ b, b < 256 →
      (pci_discover_segment env seg 257 initPciState).1.buses b ≠
        .to_visit) ∧
    (pci_discover_segment env seg 257 initPciState).1.visit_log.Nodup ∧
    ∀ b ∈ (pci_discover_segment env seg 257 initPciState).1.mark_log,
      (pci_discover_segment env seg 257 initPciState).1.visit_log.count b =
        1 := by
  obtain ⟨hinv, hterm, hnotv⟩ := pci_discover_segment_run env seg
  refine ⟨hterm, hnotv, hinv.2.1, ?_⟩
  intro b hb
  obtain ⟨hnnv, hb256⟩ := hinv.2.2 b hb
  have hvis : (pci_discover_segment env seg 257 initPciState).1.buses b =
      .visited := by
    cases hc : (pci_discover_segment env seg 257 initPciState).1.buses b
    · exact absurd hc hnnv
    · exact absurd hc (hnotv b hb256)
    · rfl
  exact List.count_eq_one_of_mem hinv.2.1 ((hinv.1 b).mp hvis)

/-- Witness for C3 on a concrete configuration space: the run completes
and its visit trace has no duplicates. -/
theorem pci_discover_segment_complete_witness :
    (pci_discover_segment pciEnvEmpty 0 257 initPciState).2 = true ∧
    (pci_discover_segment pciEnvEmpty 0 257 initPciState).1.visit_log.Nodup :=
  ⟨(pci_discover_segment_complete pciEnvEmpty 0).1,
   (pci_discover_segment_complete pciEnvEmpty 0).2.2.1⟩

/-- C10: each entry of the 256-entry bus vector only ever advances along
NOT_VISITED → TO_VISIT → VISITED: `pci_mark_bus_to_visit` changes
nothing unless the entry is `NOT_VISITED` (and then makes it
`TO_VISIT`), `pci_discover_bus` leaves the scanned bus `VISITED` (it is
set before the device scan, which only marks), a whole
`pci_discover_segment` run only advances entries, a pristine run never
scans a bus twice, and the repeat-sweep loop reaches its exit condition
within 257 sweeps from any starting state. -/
theorem pci_bus_state_monotone_spec :
    (∀ (st : PciState) (bus : Nat), st.buses bus ≠ .not_visited →
      pci_mark_bus_to_visit st bus = st) ∧
    (∀ (st : PciState) (bus : Nat), st.buses bus = .not_visited →
      (pci_mark_bus_to_visit st bus).buses bus = .to_visit) ∧
    (∀ (env : PciEnv) (seg bus : Nat) (st : PciState),
      (pci_discover_bus env seg bus st).buses bus = .visited) ∧
    (∀ (env : PciEnv) (seg fuel : Nat) (st : PciState),
      buses_advance st.buses
        (pci_discover_segment env seg fuel st).1.buses) ∧
    (∀ (env : PciEnv) (seg : Nat),
      (pci_discover_segment env seg 257 initPciState).1.visit_log.Nodup) ∧
    (∀ (env : PciEnv) (seg : Nat) (st : PciState),
      (pci_discover_segment env seg 257 st).2 = true) := by
  refine ⟨?_, ?_, ?_, ?_, ?_, ?_⟩
  · intro st bus h
    unfold pci_mark_bus_to_visit
    rw [if_neg h]
  · intro st bus h
    unfold pci_mark_bus_to_visit
    rw [if_pos h]
    simp [Function.update_same]
  · intro env seg bus st
    exact (pci_discover_bus_props env seg bus st).2.1
  · intro env seg fuel st
    exact pci_discover_segment_advance env seg fuel st
  · intro env seg
    exact (pci_discover_segment_run env seg).1.2.1
  · intro env seg st
    exact pci_discover_segment_terminates env seg st

/-- Witness for C10: marking an already-visited bus 0 changes nothing,
marking a fresh bus 0 makes it `TO_VISIT`, and a concrete run completes. -/
theorem pci_bus_state_monotone_spec_witness :
    pci_mark_bus_to_visit pciStVisited0 0 = pciStVisited0 ∧
    (pci_mark_bus_to_visit initPciState 0).buses 0 = .to_visit ∧
    (pci_discover_segment pciEnvEmpty 0 257 initPciState).2 = true :=
  ⟨pci_bus_state_monotone_spec.1 pciStVisited0 0 (by decide),
   pci_bus_state_monotone_spec.2.1 initPciState 0 rfl,
   pci_bus_state_monotone_spec.2.2.2.2.2 pciEnvEmpty 0 initPciState⟩

end Tilck
